import Mathlib

/-!
Verification of the Impuestito bot's rate limiter, result cache,
tax-calculation and conversion logic, shallowly embedded from the
Python sources (`bot.py`, `cogs/currency_commands.py`,
`telegram_bot.py`, `discord_bot.py`).

Timestamps (Python `time.time()` / `datetime.now()` floats) are
embedded as rationals; user ids as naturals; cache keys as strings.
-/

namespace Impuestito

/-- Embeds `ImpuestitoBot.check_rate_limit` (src/bot.py lines 197-216).
The bot state field `self.rate_limits` (a dict from user id to a list of
timestamps, missing keys behaving as the empty list that the method
installs on first access) is the function argument `st`.  The method
reads `config.rate_limit_window` and `config.rate_limit_commands`,
passed here as `window` and `maxEvents`.  It filters the stored
timestamps to those with `now - t < window`, stores the filtered list
back, and then either refuses (list already at `maxEvents`) or appends
`now` and accepts. -/
def check_rate_limit (window : ℚ) (maxEvents : ℕ) (st : ℕ → List ℚ)
    (user_id : ℕ) (now : ℚ) : Bool × (ℕ → List ℚ) :=
  let pruned := (st user_id).filter (fun t => decide (now - t < window))
  if maxEvents ≤ pruned.length then
    (false, fun u => if u = user_id then pruned else st u)
  else
    (true, fun u => if u = user_id then pruned ++ [now] else st u)

/-- One caller's view of `check_rate_limit`: the returned flag and the
caller's own stored list.  Used to reason about sequences of calls. -/
def rlStep (window : ℚ) (maxEvents : ℕ) (S : List ℚ) (now : ℚ) :
    Bool × List ℚ :=
  let pruned := S.filter (fun t => decide (now - t < window))
  if maxEvents ≤ pruned.length then (false, pruned)
  else (true, pruned ++ [now])

/-- Runs `check_rate_limit` for one fixed caller on a list of call
times, threading the bot state and collecting `(time, result)` pairs
together with the final state. -/
def runCalls (window : ℚ) (maxEvents : ℕ) (user_id : ℕ) :
    List ℚ → (ℕ → List ℚ) → List (ℚ × Bool) × (ℕ → List ℚ)
  | [], st => ([], st)
  | now :: rest, st =>
    let r := check_rate_limit window maxEvents st user_id now
    let tail := runCalls window maxEvents user_id rest r.2
    ((now, r.1) :: tail.1, tail.2)

/-- `(time, result)` trace of `rlStep` iterated over a list of call
times, starting from the caller's stored list `S`. -/
def rlRun (window : ℚ) (maxEvents : ℕ) : List ℚ → List ℚ → List (ℚ × Bool)
  | _, [] => []
  | S, now :: rest =>
    let r := rlStep window maxEvents S now
    (now, r.1) :: rlRun window maxEvents r.2 rest

/-- Number of accepted calls whose timestamp lies in the half-open
window `(a, a + window]`. -/
def winCount (a window : ℚ) (trace : List (ℚ × Bool)) : ℕ :=
  trace.countP (fun p => decide (a < p.1) && (decide (p.1 ≤ a + window) && p.2))

theorem check_rate_limit_fst (window : ℚ) (maxEvents : ℕ) (st : ℕ → List ℚ)
    (u : ℕ) (now : ℚ) :
    (check_rate_limit window maxEvents st u now).1 =
      (rlStep window maxEvents (st u) now).1 := by
  unfold check_rate_limit rlStep
  by_cases h : maxEvents ≤ ((st u).filter (fun t => decide (now - t < window))).length <;>
    simp [h]

theorem check_rate_limit_snd_self (window : ℚ) (maxEvents : ℕ)
    (st : ℕ → List ℚ) (u : ℕ) (now : ℚ) :
    (check_rate_limit window maxEvents st u now).2 u =
      (rlStep window maxEvents (st u) now).2 := by
  unfold check_rate_limit rlStep
  by_cases h : maxEvents ≤ ((st u).filter (fun t => decide (now - t < window))).length <;>
    simp [h]

theorem runCalls_fst (window : ℚ) (maxEvents : ℕ) (u : ℕ) :
    ∀ (ts : List ℚ) (st : ℕ → List ℚ),
      (runCalls window maxEvents u ts st).1 = rlRun window maxEvents (st u) ts
  | [], _ => rfl
  | now :: rest, st => by
    simp only [runCalls, rlRun]
    rw [runCalls_fst window maxEvents u rest, check_rate_limit_fst,
      check_rate_limit_snd_self]

theorem winCount_nil (a window : ℚ) : winCount a window [] = 0 := rfl

theorem winCount_cons (a window : ℚ) (p : ℚ × Bool) (l : List (ℚ × Bool)) :
    winCount a window (p :: l) =
      winCount a window l +
        if a < p.1 ∧ p.1 ≤ a + window ∧ p.2 = true then 1 else 0 := by
  simp only [winCount, List.countP_cons]
  congr 1
  by_cases h1 : a < p.1 <;> by_cases h2 : p.1 ≤ a + window <;>
    by_cases h3 : p.2 = true <;> simp [h1, h2, h3]

/-- Once the call times have moved past the right end of the window,
no further accepted call is counted in it. -/
theorem rlRun_winCount_past (window : ℚ) (maxEvents : ℕ) (a : ℚ) :
    ∀ (ts S : List ℚ), (∀ t ∈ ts, a + window < t) →
      winCount a window (rlRun window maxEvents S ts) = 0
  | [], _, _ => rfl
  | now :: rest, S, h => by
    have hnow : a + window < now := h now (List.mem_cons_self _ _)
    have hcond : ¬ (a < (now, (rlStep window maxEvents S now).1).1 ∧
        (now, (rlStep window maxEvents S now).1).1 ≤ a + window ∧
        (now, (rlStep window maxEvents S now).1).2 = true) := by
      intro hc
      exact absurd hc.2.1 (not_le.mpr hnow)
    rw [rlRun, winCount_cons,
      rlRun_winCount_past window maxEvents a rest _
        (fun t ht => h t (List.mem_cons_of_mem _ ht)), if_neg hcond]

/-- Pruning at a time `now ≤ a + window` keeps every stored timestamp
that lies to the right of `a`. -/
theorem countP_filter_window (window a now : ℚ) (S : List ℚ)
    (hnow : now ≤ a + window) :
    (S.filter (fun t => decide (now - t < window))).countP
        (fun t => decide (a < t)) =
      S.countP (fun t => decide (a < t)) := by
  rw [List.countP_filter]
  refine List.countP_congr (fun t _ => ?_)
  by_cases ha : a < t
  · have : now - t < window := by linarith
    simp [ha, this]
  · simp [ha]

/-- Core sliding-window bound: along any strictly increasing sequence
of call times, the accepted calls counted in the window `(a, a+window]`
never exceed the capacity left after discounting the caller's stored
timestamps already in that range. -/
theorem rlRun_window_bound (window : ℚ) (maxEvents : ℕ) (a : ℚ) :
    ∀ (ts S : List ℚ), ts.Sorted (· < ·) →
      winCount a window (rlRun window maxEvents S ts) ≤
        maxEvents - S.countP (fun t => decide (a < t))
  | [], S, _ => by
    rw [rlRun, winCount_nil]
    exact Nat.zero_le _
  | now :: rest, S, h => by
    have hrest : rest.Sorted (· < ·) := h.of_cons
    have hmem : ∀ t ∈ rest, now < t := List.rel_of_sorted_cons h
    rw [rlRun, winCount_cons]
    by_cases hpast : a + window < now
    · -- the call is beyond the window: nothing after it can count
      have hz : winCount a window
          (rlRun window maxEvents (rlStep window maxEvents S now).2 rest) = 0 :=
        rlRun_winCount_past window maxEvents a rest _
          (fun t ht => lt_trans hpast (hmem t ht))
      have hcond : ¬ (a < (now : ℚ) ∧ now ≤ a + window ∧
          (rlStep window maxEvents S now).1 = true) := by
        intro hc
        exact absurd hc.2.1 (not_le.mpr hpast)
      rw [hz, if_neg hcond]
      exact Nat.zero_le _
    · push_neg at hpast
      have hkeep : (S.filter (fun t => decide (now - t < window))).countP
            (fun t => decide (a < t)) =
          S.countP (fun t => decide (a < t)) :=
        countP_filter_window window a now S hpast
      by_cases hm : maxEvents ≤
          (S.filter (fun t => decide (now - t < window))).length
      · -- rejected: flag false, state becomes the pruned list
        have h1 : (rlStep window maxEvents S now).1 = false := by
          rw [rlStep]
          simp only [if_pos hm]
        have h2 : (rlStep window maxEvents S now).2 =
            S.filter (fun t => decide (now - t < window)) := by
          rw [rlStep]
          simp only [if_pos hm]
        have hcond : ¬ (a < (now : ℚ) ∧ now ≤ a + window ∧
            (rlStep window maxEvents S now).1 = true) := by
          intro hc
          rw [h1] at hc
          exact Bool.false_ne_true hc.2.2
        rw [if_neg hcond, h2]
        have ih := rlRun_window_bound window maxEvents a rest
          (S.filter (fun t => decide (now - t < window))) hrest
        rw [hkeep] at ih
        omega
      · -- accepted: flag true, state becomes pruned ++ [now]
        have h1 : (rlStep window maxEvents S now).1 = true := by
          rw [rlStep]
          simp only [if_neg hm]
        have h2 : (rlStep window maxEvents S now).2 =
            S.filter (fun t => decide (now - t < window)) ++ [now] := by
          rw [rlStep]
          simp only [if_neg hm]
        push_neg at hm
        have ih := rlRun_window_bound window maxEvents a rest
          (S.filter (fun t => decide (now - t < window)) ++ [now]) hrest
        rw [List.countP_append, hkeep] at ih
        rw [h2]
        by_cases hanow : a < now
        · have hSlt : S.countP (fun t => decide (a < t)) < maxEvents := by
            calc S.countP (fun t => decide (a < t))
                = (S.filter (fun t => decide (now - t < window))).countP
                    (fun t => decide (a < t)) := hkeep.symm
              _ ≤ (S.filter (fun t => decide (now - t < window))).length :=
                  List.countP_le_length _
              _ < maxEvents := hm
          have hcount1 : List.countP (fun t => decide (a < t)) [now] = 1 := by
            simp [List.countP_cons, hanow]
          rw [hcount1] at ih
          have hif : (if a < now ∧ now ≤ a + window ∧
              (rlStep window maxEvents S now).1 = true then 1 else 0) = 1 := by
            rw [h1]
            simp [hanow, hpast]
          rw [hif]
          omega
        · have hcount0 : List.countP (fun t => decide (a < t)) [now] = 0 := by
            simp [List.countP_cons, hanow]
          rw [hcount0, Nat.add_zero] at ih
          have hif : (if a < now ∧ now ≤ a + window ∧
              (rlStep window maxEvents S now).1 = true then 1 else 0) = 0 := by
            simp [hanow]
          rw [hif]
          omega

/-- C1: for every sequence of `check_rate_limit` calls from a single
caller with strictly increasing timestamps (from any prior bot state),
the number of calls returning `true` whose timestamp lies inside any
sliding window of length `window` never exceeds `maxEvents`; and in the
concrete scenario `maxEvents = 3`, `window = 60`, calls at
`t = 0, 1, 2` return `true`, the call at `t = 3` returns `false`, and
the call at `t = 61` returns `true`. -/
theorem rate_limit_sliding_window_c1 (window : ℚ) (maxEvents : ℕ)
    (user_id : ℕ) (st : ℕ → List ℚ) (a : ℚ) (ts : List ℚ)
    (hts : ts.Sorted (· < ·)) :
    winCount a window (runCalls window maxEvents user_id ts st).1 ≤ maxEvents ∧
    (runCalls 60 3 0 [0, 1, 2, 3, 61] (fun _ => ([] : List ℚ))).1 =
      [(0, true), (1, true), (2, true), (3, false), (61, true)] := by
  constructor
  · rw [runCalls_fst]
    have h := rlRun_window_bound window maxEvents a ts (st user_id) hts
    omega
  · norm_num [runCalls, check_rate_limit, List.filter]

/-- Witness for C1 at the spec's concrete scenario: window `(-1, 59]`
of length `60` contains the call times `0, 1, 2, 3`, and at most `3` of
the five calls landing in it are accepted. -/
theorem rate_limit_sliding_window_c1_witness :
    winCount (-1) 60 (runCalls 60 3 0 [0, 1, 2, 3, 61] (fun _ => ([] : List ℚ))).1 ≤ 3 ∧
    (runCalls 60 3 0 [0, 1, 2, 3, 61] (fun _ => ([] : List ℚ))).1 =
      [(0, true), (1, true), (2, true), (3, false), (61, true)] :=
  rate_limit_sliding_window_c1 60 3 0 (fun _ => []) (-1) [0, 1, 2, 3, 61] (by decide)

/-- C2: a single `check_rate_limit` call first prunes the caller's
stored timestamps to those with `now - t < window`; if the pruned count
has reached `maxEvents` it returns `false` and stores only the pruned
list (it does not record `now`), otherwise it appends `now` and returns
`true`; with `maxEvents = 0` every call returns `false`. -/
theorem rate_limit_single_call_c2 (window : ℚ) (maxEvents : ℕ)
    (st : ℕ → List ℚ) (u : ℕ) (now : ℚ) :
    check_rate_limit window maxEvents st u now =
      (decide (((st u).filter (fun t => decide (now - t < window))).length < maxEvents),
       fun v => if v = u then
          (if ((st u).filter (fun t => decide (now - t < window))).length < maxEvents then
            (st u).filter (fun t => decide (now - t < window)) ++ [now]
          else
            (st u).filter (fun t => decide (now - t < window)))
        else st v) ∧
    (maxEvents = 0 → (check_rate_limit window maxEvents st u now).1 = false) := by
  constructor
  · unfold check_rate_limit
    by_cases h : maxEvents ≤ ((st u).filter (fun t => decide (now - t < window))).length
    · have h' : ¬ ((st u).filter (fun t => decide (now - t < window))).length < maxEvents := by
        omega
      simp [h, h']
    · have h' : ((st u).filter (fun t => decide (now - t < window))).length < maxEvents := by
        omega
      simp [h, h']
  · intro h0
    unfold check_rate_limit
    simp [h0]

/-- Witness for C2 with `maxEvents = 0`: the very first call from a
fresh caller is already refused. -/
theorem rate_limit_single_call_c2_witness :
    (check_rate_limit 60 0 (fun _ => ([] : List ℚ)) 0 5).1 = false :=
  (rate_limit_single_call_c2 60 0 (fun _ => []) 0 5).2 rfl

/-- Any sequence of calls from caller `B` leaves every other caller's
stored list untouched (`check_rate_limit` only rewrites the entry of
the caller it is invoked for). -/
theorem runCalls_preserves_other (window : ℚ) (maxEvents : ℕ) (B A : ℕ)
    (hne : A ≠ B) :
    ∀ (calls : List ℚ) (st : ℕ → List ℚ),
      (runCalls window maxEvents B calls st).2 A = st A
  | [], _ => rfl
  | now :: rest, st => by
    rw [runCalls, runCalls_preserves_other window maxEvents B A hne rest]
    unfold check_rate_limit
    by_cases h : maxEvents ≤ ((st B).filter (fun t => decide (now - t < window))).length <;>
      simp [h, hne]

/-- C9: two distinct callers are independent.  After any sequence of
calls by caller `B`, caller `A`'s stored list is unchanged, and a
`check_rate_limit` call for `A` at any time `t` returns the same flag
and leaves `A` with the same recorded events as it would have without
`B`'s calls. -/
theorem rate_limit_caller_independence_c9 (window : ℚ) (maxEvents : ℕ)
    (st : ℕ → List ℚ) (A B : ℕ) (hne : A ≠ B) (calls : List ℚ) (t : ℚ) :
    (runCalls window maxEvents B calls st).2 A = st A ∧
    (check_rate_limit window maxEvents
        (runCalls window maxEvents B calls st).2 A t).1 =
      (check_rate_limit window maxEvents st A t).1 ∧
    (check_rate_limit window maxEvents
        (runCalls window maxEvents B calls st).2 A t).2 A =
      (check_rate_limit window maxEvents st A t).2 A := by
  have hA : (runCalls window maxEvents B calls st).2 A = st A :=
    runCalls_preserves_other window maxEvents B A hne calls st
  refine ⟨hA, ?_, ?_⟩
  · rw [check_rate_limit_fst, check_rate_limit_fst, hA]
  · rw [check_rate_limit_snd_self, check_rate_limit_snd_self, hA]

/-- Witness for C9: caller `1` exhausts the limit with calls at
`t = 0, 1, 2`, yet caller `0`'s state and outcome at `t = 2` are as if
those calls had never happened. -/
theorem rate_limit_caller_independence_c9_witness :
    (runCalls 60 3 1 [0, 1, 2] (fun _ => ([] : List ℚ))).2 0 = [] ∧
    (check_rate_limit 60 3
        (runCalls 60 3 1 [0, 1, 2] (fun _ => ([] : List ℚ))).2 0 2).1 =
      (check_rate_limit 60 3 (fun _ => ([] : List ℚ)) 0 2).1 ∧
    (check_rate_limit 60 3
        (runCalls 60 3 1 [0, 1, 2] (fun _ => ([] : List ℚ))).2 0 2).2 0 =
      (check_rate_limit 60 3 (fun _ => ([] : List ℚ)) 0 2).2 0 :=
  rate_limit_caller_independence_c9 60 3 (fun _ => []) 0 1 (by decide) [0, 1, 2] 2

/-! ### The cog-level result cache

`CurrencyCommands` (src/cogs/currency_commands.py) keeps its own
`self.cached_data`: a Python dict from string cache keys to pairs
`(cache_time, data)`, with `self.cache_duration = 300` seconds.  The
dict is embedded as an insertion-ordered association list with unique
keys; `dictSet` is Python dict item assignment (overwrite in place if
the key is present, else append), `dictGet` is dict lookup. -/

/-- The cog cache: entries `(key, (storedAt, value))` in insertion
order.  `α` is the stored payload (Discord embeds in the source). -/
def CacheMap (α : Type) : Type := List (String × ℚ × α)

/-- Python dict item assignment for the embedded cache dict. -/
def dictSet {α : Type} : CacheMap α → String → ℚ × α → CacheMap α
  | [], k, tv => [(k, tv)]
  | e :: rest, k, tv =>
    if e.1 = k then (k, tv) :: rest else e :: dictSet rest k tv

/-- Python dict lookup for the embedded cache dict. -/
def dictGet {α : Type} : CacheMap α → String → Option (ℚ × α)
  | [], _ => none
  | e :: rest, k => if e.1 = k then some e.2 else dictGet rest k

/-- Embeds `CurrencyCommands._set_cache` (lines 44-46): stores
`(datetime.now(), data)` under the key; `now` is passed explicitly. -/
def _set_cache {α : Type} (m : CacheMap α) (cache_key : String)
    (now : ℚ) (data : α) : CacheMap α :=
  dictSet m cache_key (now, data)

/-- Embeds `CurrencyCommands._is_cache_valid` (lines 36-42): the key
must be present and its timestamp within `cache_duration` of now. -/
def _is_cache_valid {α : Type} (cache_duration : ℚ) (m : CacheMap α)
    (now : ℚ) (cache_key : String) : Bool :=
  match dictGet m cache_key with
  | none => false
  | some (cache_time, _) => decide (now - cache_time < cache_duration)

/-- Embeds `CurrencyCommands._get_cache` (lines 48-52): returns the
stored payload when `_is_cache_valid`, else `None`. -/
def _get_cache {α : Type} (cache_duration : ℚ) (m : CacheMap α)
    (now : ℚ) (cache_key : String) : Option α :=
  if _is_cache_valid cache_duration m now cache_key then
    (dictGet m cache_key).map Prod.snd
  else
    none

theorem dictGet_dictSet_self {α : Type} (m : CacheMap α) (k : String)
    (tv : ℚ × α) : dictGet (dictSet m k tv) k = some tv := by
  induction m with
  | nil => simp [dictSet, dictGet]
  | cons e rest ih =>
    by_cases h : e.1 = k
    · simp [dictSet, dictGet, h]
    · simp [dictSet, dictGet, h, ih]

theorem dictGet_dictSet_other {α : Type} (m : CacheMap α) (k k' : String)
    (tv : ℚ × α) (hne : k' ≠ k) :
    dictGet (dictSet m k tv) k' = dictGet m k' := by
  have hkk : ¬ (k = k') := fun hc => hne hc.symm
  induction m with
  | nil => simp [dictSet, dictGet, hkk]
  | cons e rest ih =>
    obtain ⟨ek, ev⟩ := e
    by_cases h : ek = k
    · subst h
      simp [dictSet, dictGet, hkk]
    · by_cases h2 : ek = k'
      · subst h2
        simp [dictSet, dictGet, h, hne]
      · simp [dictSet, dictGet, h, h2, ih]

theorem length_dictSet_new {α : Type} (m : CacheMap α) (k : String)
    (tv : ℚ × α) (habs : dictGet m k = none) :
    (dictSet m k tv).length = m.length + 1 := by
  induction m with
  | nil => simp [dictSet]
  | cons e rest ih =>
    by_cases h : e.1 = k
    · simp [dictGet, h] at habs
    · simp only [dictGet, h, if_neg] at habs
      simp [dictSet, h, ih habs]

/-- C4 (part): a value stored at time `t` is reported absent by any
read at or after expiry. -/
theorem cache_expiry_c4 {α : Type} (cache_duration : ℚ) (m : CacheMap α)
    (k : String) (v : α) (t t' now : ℚ) :
    (cache_duration ≤ t' - t →
      _get_cache cache_duration (_set_cache m k t v) t' k = none) ∧
    (_get_cache cache_duration m now k = none ↔
      dictGet m k = none ∨
      ∃ s w, dictGet m k = some (s, w) ∧ cache_duration ≤ now - s) := by
  constructor
  · intro hexp
    unfold _get_cache _is_cache_valid _set_cache
    rw [dictGet_dictSet_self]
    have : ¬ (t' - t < cache_duration) := not_lt.mpr hexp
    simp [this]
  · unfold _get_cache _is_cache_valid
    cases hget : dictGet m k with
    | none => simp [hget]
    | some p =>
      obtain ⟨s, w⟩ := p
      by_cases hv : now - s < cache_duration
      · simp [hget, hv, not_le.mpr hv]
      · simp [hget, hv, not_lt.mp hv]

/-- Witness for C4: a value stored at `t = 0` with a 300 second TTL is
absent when read at `t = 300`. -/
theorem cache_expiry_c4_witness :
    _get_cache 300 (_set_cache ([] : CacheMap ℕ) "k" 0 7) 300 "k" = none :=
  (cache_expiry_c4 300 [] "k" 7 0 300 0).1 (by simp)

/-- C5: a `_get_cache` performed after `_set_cache` for the same key,
within `cache_duration` of the store, returns exactly the stored value
(round trip; the cog cache has no eviction that could intervene). -/
theorem cache_round_trip_c5 {α : Type} (cache_duration : ℚ)
    (m : CacheMap α) (k : String) (v : α) (t t' : ℚ)
    (h : t' - t < cache_duration) :
    _get_cache cache_duration (_set_cache m k t v) t' k = some v := by
  unfold _get_cache _is_cache_valid _set_cache
  rw [dictGet_dictSet_self]
  simp [h]

/-- Witness for C5: store at `t = 0`, read back at `t = 0` with a
300 second TTL. -/
theorem cache_round_trip_c5_witness :
    _get_cache 300 (_set_cache ([] : CacheMap ℕ) "k" 0 7) 0 "k" = some 7 :=
  cache_round_trip_c5 300 [] "k" 7 0 0 (by simp)

/-- C3 counterexample: instantiating the claim at `maxEntries = 2` and
inserting the three distinct keys `"a"`, `"b"`, `"c"` into the empty
cog cache, `_set_cache` evicts nothing: all three entries are still
present and the size is `3`, not `maxEntries = 2`. -/
theorem cache_no_bound_counterexample_c3 :
    (_set_cache (_set_cache (_set_cache ([] : CacheMap ℕ) "a" 0 1) "b" 0 2)
        "c" 0 3).length = 3 ∧
    dictGet (_set_cache (_set_cache (_set_cache ([] : CacheMap ℕ) "a" 0 1) "b" 0 2)
        "c" 0 3) "a" = some (0, 1) ∧
    dictGet (_set_cache (_set_cache (_set_cache ([] : CacheMap ℕ) "a" 0 1) "b" 0 2)
        "c" 0 3) "b" = some (0, 2) ∧
    dictGet (_set_cache (_set_cache (_set_cache ([] : CacheMap ℕ) "a" 0 1) "b" 0 2)
        "c" 0 3) "c" = some (0, 3) ∧
    ¬ (_set_cache (_set_cache (_set_cache ([] : CacheMap ℕ) "a" 0 1) "b" 0 2)
        "c" 0 3).length = 2 := by
  decide

/-- C3 amended: the cog cache's put (`_set_cache`) never evicts and
enforces no size bound: storing an absent key grows the size by exactly
one and leaves every other entry unchanged, so inserting
`maxEntries + 1` distinct keys yields size `maxEntries + 1` with zero
evictions (the only size-bounded cache is the `cachetools.TTLCache`
built in `bot.py`, which is external library code). -/
theorem cache_put_no_eviction_c3 {α : Type} (m : CacheMap α)
    (k : String) (t : ℚ) (v : α) (habs : dictGet m k = none) :
    (_set_cache m k t v).length = m.length + 1 ∧
    ∀ k', k' ≠ k → dictGet (_set_cache m k t v) k' = dictGet m k' :=
  ⟨length_dictSet_new m k (t, v) habs,
   fun k' h => dictGet_dictSet_other m k k' (t, v) h⟩

/-- Witness for C3 (amended): adding key `"b"` to a one-entry cache
yields size 2 and keeps every other key's entry intact. -/
theorem cache_put_no_eviction_c3_witness :
    (_set_cache ([("a", ((0 : ℚ), (1 : ℕ)))]) "b" 0 2).length = [("a", ((0 : ℚ), (1 : ℕ)))].length + 1 ∧
    ∀ k', k' ≠ "b" →
      dictGet (_set_cache ([("a", ((0 : ℚ), (1 : ℕ)))]) "b" 0 2) k' =
        dictGet [("a", ((0 : ℚ), (1 : ℕ)))] k' :=
  cache_put_no_eviction_c3 [("a", (0, 1))] "b" 0 2 (by decide)

/-! ### Tax calculation and currency conversion

The country-tax formula itself lives in the external `impuestito`
package (`calcularImpuestoPais`, imported in `bot.py`,
`telegram_bot.py`, `discord_bot.py` and `cogs/currency_commands.py`);
only its callers are in this repository.  The conversion arithmetic is
inline in the command handlers.  Monetary amounts and rates (Python
floats) are embedded as rationals. -/

/-- Result of the country-tax calculation, with the field names of the
specification (`cantidadVieja` / `agregado` / `cantidadFinal` in the
dict returned by the external package). -/
structure TaxCalculationResult where
  originalAmount : ℚ
  addedTax : ℚ
  finalAmount : ℚ
  deriving DecidableEq, Repr

/-- Failure of the tax calculator on an invalid amount. -/
inductive TaxError where
  | InvalidAmount
  deriving DecidableEq, Repr

/-- Failure of a conversion on a degenerate zero rate (Python's
`ZeroDivisionError`). -/
inductive ConvError where
  | DivisionByZero
  deriving DecidableEq, Repr

/-- Conversion direction: `toLocal` is USD → ARS
(`dolar_pesos_command`), `toForeign` is ARS → USD
(`pesos_dolar_command`). -/
inductive Direction where
  | toLocal
  | toForeign
  deriving DecidableEq, Repr

/-- Modelled from the spec: `calcularImpuestoPais` is imported from the
external `impuestito` package, so its body is not part of this
repository.  Per the spec's `calculateCountryTax(amount, rate)`: the
amount must be a finite non-negative number (rationals are always
finite, so the check is non-negativity), violations fail with
`InvalidAmount`; otherwise the result satisfies
`addedTax = amount * rate` and `finalAmount = amount + addedTax` with
no internal rounding. -/
def calculateCountryTax (amount rate : ℚ) :
    Except TaxError TaxCalculationResult :=
  if amount < 0 then
    Except.error TaxError.InvalidAmount
  else
    Except.ok ⟨amount, amount * rate, amount + amount * rate⟩

/-- Embeds the conversion arithmetic of the command handlers:
`pesos = cotizacion * cantidad_usd` (`dolar_pesos_command`,
src/cogs/currency_commands.py line 366) and
`dolares = cantidad_pesos / cotizacion` (`pesos_dolar_command`,
line 426), where Python raises `ZeroDivisionError` when the divisor is
zero (caught by the handler's `except` block). -/
def convert (amount rateValue : ℚ) (direction : Direction) :
    Except ConvError ℚ :=
  match direction with
  | Direction.toLocal => Except.ok (amount * rateValue)
  | Direction.toForeign =>
    if rateValue = 0 then Except.error ConvError.DivisionByZero
    else Except.ok (amount / rateValue)

/-- C6: for every non-negative amount and rate, the tax result
satisfies `addedTax = originalAmount * rate` and
`finalAmount = originalAmount + addedTax` with no rounding; in
particular `calculateCountryTax 100 0.30` gives original `100`, tax
`30`, final `130`. -/
theorem calculate_country_tax_formula_c6 (amount rate : ℚ)
    (h : 0 ≤ amount) :
    calculateCountryTax amount rate =
      Except.ok ⟨amount, amount * rate, amount + amount * rate⟩ ∧
    calculateCountryTax 100 (30 / 100) = Except.ok ⟨100, 30, 130⟩ := by
  constructor
  · unfold calculateCountryTax
    rw [if_neg (not_lt.mpr h)]
  · unfold calculateCountryTax
    norm_num

/-- Witness for C6 at the spec's example `amount = 100`,
`rate = 0.30`. -/
theorem calculate_country_tax_formula_c6_witness :
    calculateCountryTax 100 (30 / 100) =
      Except.ok ⟨100, 100 * (30 / 100), 100 + 100 * (30 / 100)⟩ ∧
    calculateCountryTax 100 (30 / 100) = Except.ok ⟨100, 30, 130⟩ :=
  calculate_country_tax_formula_c6 100 (30 / 100) (by decide)

/-- C8: the tax calculator fails with `InvalidAmount` exactly on
negative amounts (every rational is finite, so "not finite
non-negative" is exactly "negative" here); `calculateCountryTax (-5)
0.30` fails with `InvalidAmount`, and `0` is accepted. -/
theorem calculate_country_tax_invalid_c8 (amount rate : ℚ) :
    (calculateCountryTax amount rate = Except.error TaxError.InvalidAmount ↔
      amount < 0) ∧
    calculateCountryTax (-5) (30 / 100) =
      Except.error TaxError.InvalidAmount ∧
    (calculateCountryTax 0 rate).isOk = true := by
  refine ⟨?_, ?_, ?_⟩
  · unfold calculateCountryTax
    by_cases h : amount < 0
    · simp [h]
    · simp [h]
  · unfold calculateCountryTax
    norm_num
  · unfold calculateCountryTax
    norm_num [Except.isOk, Except.toBool]

/-- C7: `convert` multiplies for `toLocal` (`50` at rate `900` gives
`45000`), divides for `toForeign`, and fails with `DivisionByZero`
exactly when the direction is `toForeign` and the rate is `0`. -/
theorem convert_directions_c7 (amount rateValue : ℚ) :
    convert amount rateValue Direction.toLocal =
      Except.ok (amount * rateValue) ∧
    (rateValue ≠ 0 → convert amount rateValue Direction.toForeign =
      Except.ok (amount / rateValue)) ∧
    convert amount 0 Direction.toForeign =
      Except.error ConvError.DivisionByZero ∧
    convert 50 900 Direction.toLocal = Except.ok 45000 ∧
    convert 100 0 Direction.toForeign =
      Except.error ConvError.DivisionByZero ∧
    ∀ d : Direction, ((convert amount rateValue d).isOk = false ↔
      d = Direction.toForeign ∧ rateValue = 0) := by
  refine ⟨rfl, ?_, ?_, ?_, ?_, ?_⟩
  · intro hnz
    unfold convert
    rw [if_neg hnz]
  · unfold convert
    rw [if_pos rfl]
  · unfold convert
    norm_num
  · unfold convert
    rw [if_pos rfl]
  · intro d
    cases d with
    | toLocal => simp [convert, Except.isOk, Except.toBool]
    | toForeign =>
      by_cases h : rateValue = 0 <;>
        simp [convert, h, Except.isOk, Except.toBool]

/-- Witness for C7: at rate `900` the `toForeign` division succeeds,
and the spec's `toLocal` example evaluates to `45000`. -/
theorem convert_directions_c7_witness :
    convert 50 900 Direction.toForeign = Except.ok (50 / 900) ∧
    convert 50 900 Direction.toLocal = Except.ok 45000 :=
  ⟨(convert_directions_c7 50 900).2.1 (by decide),
   (convert_directions_c7 50 900).2.2.2.1⟩

/-! ### The command layer of `cogs/currency_commands.py`

The three amount-taking commands share the cog's `self.cached_data`
dict.  A handler invocation is modelled as a function of the cache, the
current time, the externally fetched official rate (`oficial`) and the
user's amount, returning the reply sent, the new cache and the number
of API calls performed (`update_stats('api_calls')` inside
`_safe_api_call`). -/

/-- Payload a handler formats into its embed and stores in the cog
cache. -/
inductive Payload where
  | taxEmbed (r : TaxCalculationResult)
  | pesosEmbed (cantidad_usd cotizacion pesos : ℚ)
  | dolaresEmbed (cantidad_pesos cotizacion dolares : ℚ)
  deriving DecidableEq, Repr

/-- The message a handler replies with. -/
inductive Reply where
  | validationMsg (text : String)
  | embedReply (p : Payload)
  | errorMsg (text : String)
  deriving DecidableEq, Repr

/-- Embeds `CurrencyCommands._get_cache_key` (lines 32-34). -/
def _get_cache_key (command : String) (arg : String) : String :=
  command ++ ":" ++ arg

/-- Embeds `CurrencyCommands.impuesto_pais_command`
(src/cogs/currency_commands.py lines 281-339): reject
`cantidad <= 0` and `cantidad > 1000000` with a validation message
before touching cache or API; otherwise serve from the cog cache or
compute the 30% country tax and cache the embed. -/
def impuesto_pais_command (cache : CacheMap Payload) (now : ℚ)
    (cantidad : ℚ) : Reply × CacheMap Payload × ℕ :=
  if cantidad ≤ 0 then
    (Reply.validationMsg "La cantidad debe ser mayor a 0.", cache, 0)
  else if 1000000 < cantidad then
    (Reply.validationMsg "La cantidad maxima permitida es 1,000,000 USD.",
     cache, 0)
  else
    let key := _get_cache_key "impuesto_pais" (toString cantidad)
    match _get_cache 300 cache now key with
    | some p => (Reply.embedReply p, cache, 0)
    | none =>
      match calculateCountryTax cantidad (30 / 100) with
      | Except.error _ =>
        (Reply.errorMsg "Error al calcular el impuesto pais.", cache, 1)
      | Except.ok r =>
        (Reply.embedReply (Payload.taxEmbed r),
         _set_cache cache key now (Payload.taxEmbed r), 1)

/-- Embeds `CurrencyCommands.dolar_pesos_command` (lines 341-399):
reject `cantidad_usd <= 0` and `cantidad_usd > 1000000`; otherwise
serve from cache or convert `oficial * cantidad_usd` and cache. -/
def dolar_pesos_command (cache : CacheMap Payload) (now oficial : ℚ)
    (cantidad_usd : ℚ) : Reply × CacheMap Payload × ℕ :=
  if cantidad_usd ≤ 0 then
    (Reply.validationMsg "La cantidad debe ser mayor a 0.", cache, 0)
  else if 1000000 < cantidad_usd then
    (Reply.validationMsg "La cantidad maxima permitida es 1,000,000 USD.",
     cache, 0)
  else
    let key := _get_cache_key "dolar_pesos" (toString cantidad_usd)
    match _get_cache 300 cache now key with
    | some p => (Reply.embedReply p, cache, 0)
    | none =>
      match convert cantidad_usd oficial Direction.toLocal with
      | Except.error _ =>
        (Reply.errorMsg "Error al convertir dolares a pesos.", cache, 1)
      | Except.ok pesos =>
        (Reply.embedReply (Payload.pesosEmbed cantidad_usd oficial pesos),
         _set_cache cache key now (Payload.pesosEmbed cantidad_usd oficial pesos),
         1)

/-- Embeds `CurrencyCommands.pesos_dolar_command` (lines 401-459):
reject `cantidad_pesos <= 0` and `cantidad_pesos > 1000000000`;
otherwise serve from cache or convert `cantidad_pesos / cotizacion`
(the `except` block turns a `ZeroDivisionError` into an error reply,
cached nothing) and cache on success. -/
def pesos_dolar_command (cache : CacheMap Payload) (now oficial : ℚ)
    (cantidad_pesos : ℚ) : Reply × CacheMap Payload × ℕ :=
  if cantidad_pesos ≤ 0 then
    (Reply.validationMsg "La cantidad debe ser mayor a 0.", cache, 0)
  else if 1000000000 < cantidad_pesos then
    (Reply.validationMsg "La cantidad maxima permitida es 1,000,000,000 ARS.",
     cache, 0)
  else
    let key := _get_cache_key "pesos_dolar" (toString cantidad_pesos)
    match _get_cache 300 cache now key with
    | some p => (Reply.embedReply p, cache, 0)
    | none =>
      match convert cantidad_pesos oficial Direction.toForeign with
      | Except.error _ =>
        (Reply.errorMsg "Error al convertir pesos a dolares.", cache, 1)
      | Except.ok dolares =>
        (Reply.embedReply (Payload.dolaresEmbed cantidad_pesos oficial dolares),
         _set_cache cache key now (Payload.dolaresEmbed cantidad_pesos oficial dolares),
         1)

/-- C10: each amount-taking command rejects non-positive amounts and
amounts above its hard cap (1,000,000 for the dollar-amount commands,
1,000,000,000 for the peso-amount command) with a validation reply,
leaving the cache untouched and performing no API call — including
`amount = 0`, which the calculator's stated precondition would
accept. -/
theorem command_input_bounds_c10 (cache : CacheMap Payload)
    (now oficial x : ℚ) :
    ((x ≤ 0 ∨ 1000000 < x) →
      (∃ s, impuesto_pais_command cache now x =
        (Reply.validationMsg s, cache, 0)) ∧
      (∃ s, dolar_pesos_command cache now oficial x =
        (Reply.validationMsg s, cache, 0))) ∧
    ((x ≤ 0 ∨ 1000000000 < x) →
      (∃ s, pesos_dolar_command cache now oficial x =
        (Reply.validationMsg s, cache, 0))) := by
  constructor
  · intro hx
    rcases hx with hle | hgt
    · exact ⟨⟨_, by unfold impuesto_pais_command; rw [if_pos hle]⟩,
             ⟨_, by unfold dolar_pesos_command; rw [if_pos hle]⟩⟩
    · have hnle : ¬ x ≤ 0 := by linarith
      exact ⟨⟨_, by unfold impuesto_pais_command; rw [if_neg hnle, if_pos hgt]⟩,
             ⟨_, by unfold dolar_pesos_command; rw [if_neg hnle, if_pos hgt]⟩⟩
  · intro hx
    rcases hx with hle | hgt
    · exact ⟨_, by unfold pesos_dolar_command; rw [if_pos hle]⟩
    · have hnle : ¬ x ≤ 0 := by linarith
      exact ⟨_, by unfold pesos_dolar_command; rw [if_neg hnle, if_pos hgt]⟩

/-- Witness for C10 at `amount = 0`: all three commands reject zero,
leave the cache empty and perform no API call. -/
theorem command_input_bounds_c10_witness :
    ((∃ s, impuesto_pais_command [] 0 0 =
        (Reply.validationMsg s, ([] : CacheMap Payload), 0)) ∧
      (∃ s, dolar_pesos_command [] 0 1000 0 =
        (Reply.validationMsg s, ([] : CacheMap Payload), 0))) ∧
    (∃ s, pesos_dolar_command [] 0 1000 0 =
      (Reply.validationMsg s, ([] : CacheMap Payload), 0)) :=
  ⟨(command_input_bounds_c10 [] 0 1000 0).1 (Or.inl (by decide)),
   (command_input_bounds_c10 [] 0 1000 0).2 (Or.inl (by decide))⟩

end Impuestito
